import Mathlib

/-
Verification of the ELF shared-library dependency scanner (src/src/main.rs of
linux-hs-elf).  The program reads every file of a directory, classifies each as
ELF32 / ELF64 / other, decodes the dynamic section, resolves the DT_NEEDED
entries through the DT_STRTAB/DT_STRSZ string table, and aggregates a reverse
dependency index (library name -> dependent executables) sorted ascending by
dependent count.

Embedding conventions:
- byte buffers are `List Nat` (each element a byte value);
- library names are the raw byte sequences found in the string table, before
  UTF-8-lossy decoding (the decoding step does not affect any claim);
- machine integers are `Nat`/`Int` with explicit `% 2 ^ 64` where the source
  performs u64 arithmetic that can wrap;
- the parts of the pipeline implemented by the `object` crate (format
  sniffing, header parsing, section walking, `StringTable::get`) are modelled
  from the specification, and are marked `Modelled from the spec:` in their
  doc comments; everything else is translated directly from src/src/main.rs.
-/

set_option autoImplicit false

namespace HsElf

/-- Byte order of an ELF object (`object::Endianness`). -/
inductive Endianness where
  | little
  | big
deriving DecidableEq

/-- Per-file error type (src/src/main.rs lines 18-24). -/
inductive HandleError where
  | IoError
  | ObjectReadError
  | NoDynamic
  | NotElf
deriving DecidableEq

instance {ε α : Type} [DecidableEq ε] [DecidableEq α] : DecidableEq (Except ε α) := fun a b =>
  match a, b with
  | .error x, .error y =>
    if h : x = y then .isTrue (congrArg Except.error h)
    else .isFalse (fun hc => h (by injection hc))
  | .error _, .ok _ => .isFalse (fun hc => Except.noConfusion hc)
  | .ok _, .error _ => .isFalse (fun hc => Except.noConfusion hc)
  | .ok x, .ok y =>
    if h : x = y then .isTrue (congrArg Except.ok h)
    else .isFalse (fun hc => h (by injection hc))

/-- Dynamic-entry tag: terminator of a dynamic array (ELF ABI, `object::elf`). -/
def DT_NULL : Nat := 0

/-- Dynamic-entry tag: name of a needed library (ELF ABI, `object::elf`). -/
def DT_NEEDED : Nat := 1

/-- Dynamic-entry tag: address of the string table (ELF ABI, `object::elf`). -/
def DT_STRTAB : Nat := 5

/-- Dynamic-entry tag: size of the string table (ELF ABI, `object::elf`). -/
def DT_STRSZ : Nat := 10

/-- A decoded entry of the `.dynamic` section: `d_tag` is a signed 64-bit
integer, `d_val` an unsigned 64-bit one (`object::elf::Dyn64`). -/
structure DynEntry where
  d_tag : Int
  d_val : Nat
deriving DecidableEq

/-- `Dyn::tag32`: the tag as a `u32` when it is representable, `None`
otherwise (src line 43 calls this on each entry). -/
def tag32 (e : DynEntry) : Option Nat :=
  if 0 ≤ e.d_tag ∧ e.d_tag < (2 : Int) ^ 32 then some e.d_tag.toNat else none

/-- First pass of `extract_libs` (src lines 39-58): the for-loop over the
dynamic entries, accumulating the DT_NEEDED offsets in encounter order and the
last-seen DT_STRTAB / DT_STRSZ values.  Every other tag (including `DT_NULL`)
falls into the wildcard arm of the `match` and is skipped. -/
def scanDynAux : List Nat → Nat → Nat → List DynEntry → List Nat × Nat × Nat
  | offs, st, sz, [] => (offs, st, sz)
  | offs, st, sz, e :: es =>
    match tag32 e with
    | some t =>
      if t = DT_NEEDED then scanDynAux (offs ++ [e.d_val]) st sz es
      else if t = DT_STRTAB then scanDynAux offs e.d_val sz es
      else if t = DT_STRSZ then scanDynAux offs st e.d_val es
      else scanDynAux offs st sz es
    | none => scanDynAux offs st sz es

/-- The state produced by the scan loop starting from the initial values of
src lines 39-41 (`libs_offs = []`, `dt_strtab = 0`, `dt_strsz = 0`). -/
def scanDyn (es : List DynEntry) : List Nat × Nat × Nat :=
  scanDynAux [] 0 0 es

/-- Modelled from the spec: §4.5 String Table Resolver — the `object` crate's
`StringTable::get`, which is not part of this repository's sources.  The
absolute position is `start + offset`; the bytes `[pos, stop)` of the buffer
are sliced (failing when `pos > stop` or `stop > buffer length`), and the
bytes strictly before the first null terminator are returned; the lookup fails
when no terminator exists in the slice. -/
def stringTableGet (buf : List Nat) (start stop offset : Nat) : Option (List Nat) :=
  let pos := start + offset
  if pos ≤ stop ∧ stop ≤ buf.length then
    let bytes := (buf.drop pos).take (stop - pos)
    if bytes.any (fun b => b == 0) then some (bytes.takeWhile (fun b => b != 0)) else none
  else none

/-- `extract_libs` (src lines 26-84) after the dynamic section has been
located: `entries` are the decoded `(d_tag, d_val)` pairs of the section.
Scans the entries, builds the string table view
`(dt_strtab, dt_strtab + dt_strsz)` (u64 addition, src line 62), converts each
needed offset to `u32` (skipping values that do not fit, src lines 59-72) and
resolves it through the table (skipping failed lookups, src lines 73-81). -/
def extract_libs (bin_data : List Nat) (entries : List DynEntry) : List (List Nat) :=
  let scanned := scanDyn entries
  let stop := (scanned.2.1 + scanned.2.2) % 2 ^ 64
  scanned.1.foldl
    (fun libs n =>
      if n < 2 ^ 32 then
        match stringTableGet bin_data scanned.2.1 stop n with
        | some name => libs ++ [name]
        | none => libs
      else libs) []

/-- The string-table view `(start, end)` that `extract_libs` constructs at
src lines 61-63: start = last DT_STRTAB value, end = start + last DT_STRSZ
value under wrapping u64 addition.  No bound against the buffer is checked at
construction. -/
def strTabBounds (entries : List DynEntry) : Nat × Nat :=
  ((scanDyn entries).2.1, ((scanDyn entries).2.1 + (scanDyn entries).2.2) % 2 ^ 64)

/-- Resolution of one needed offset (src lines 59-81): the `u32::try_from`
conversion followed by the string-table lookup, `none` when either step
fails. -/
def resolveNeeded (buf : List Nat) (start stop : Nat) (n : Nat) : Option (List Nat) :=
  if n < 2 ^ 32 then stringTableGet buf start stop n else none

/-- The DT_NEEDED values of a dynamic entry list, in encounter order
(reference form of the first component of `scanDyn`). -/
def neededVals : List DynEntry → List Nat
  | [] => []
  | e :: es => if tag32 e = some DT_NEEDED then e.d_val :: neededVals es else neededVals es

/-- The value of the last entry with `tag32 = some t`, default `d`
(reference form of the string-table components of `scanDyn`). -/
def lastValD (t : Nat) : Nat → List DynEntry → Nat
  | d, [] => d
  | d, e :: es => if tag32 e = some t then lastValD t e.d_val es else lastValD t d es

/-- Result of format sniffing (`object::FileKind`, restricted to the cases
the program distinguishes at src lines 101-117). -/
inductive FileKind where
  | elf32
  | elf64
  | other
deriving DecidableEq

/-- The four ELF magic bytes `\x7fELF`. -/
def ELFMAG : List Nat := [0x7f, 0x45, 0x4c, 0x46]

/-- Modelled from the spec: §4.1 Format Sniffer — `object::FileKind::parse`,
which is not part of this repository's sources.  A buffer shorter than the
16-byte identification header or lacking the ELF magic is not ELF; otherwise
the class byte at index 4 selects ELF32 (1) or ELF64 (2). -/
def classify (buf : List Nat) : FileKind :=
  if buf.length < 16 then .other
  else if buf.take 4 = ELFMAG then
    match buf[4]? with
    | some 1 => .elf32
    | some 2 => .elf64
    | _ => .other
  else .other

/-- Bytes `[off, off + n)` of the buffer, failing when they extend past its
end. -/
def readBytes (buf : List Nat) (off n : Nat) : Option (List Nat) :=
  if off + n ≤ buf.length then some ((buf.drop off).take n) else none

/-- Value of a little-endian byte sequence. -/
def leVal : List Nat → Nat
  | [] => 0
  | b :: bs => b + 256 * leVal bs

/-- Modelled from the spec: multi-byte field decoding governed by the byte
order extracted from the header (§4.2). -/
def readUInt (buf : List Nat) (e : Endianness) (off n : Nat) : Option Nat :=
  (readBytes buf off n).map (fun bs =>
    leVal (match e with | .little => bs | .big => bs.reverse))

/-- The fields of the ELF64 header that the extraction pipeline uses. -/
structure ElfHeader64 where
  endian : Endianness
  e_shoff : Nat
  e_shentsize : Nat
  e_shnum : Nat
deriving DecidableEq

/-- The byte-order byte of the identification: 1 = ELFDATA2LSB,
2 = ELFDATA2MSB, anything else unsupported. -/
def parseEndianByte : Option Nat → Option Endianness
  | some 1 => some .little
  | some 2 => some .big
  | _ => none

/-- Modelled from the spec: §4.2 Header Decoder — the `object` crate's
`FileHeader64::parse`, which is not part of this repository's sources.  The
64-bit layout requires a full 64-byte header whose identification carries the
ELF magic, the class byte `ELFCLASS64 = 2`, and a byte-order byte that is one
of the two recognized values; the section-table offset, entry size and count
are then decoded under that byte order (offsets 0x28, 0x3A, 0x3C). -/
def fileHeader64Parse (buf : List Nat) : Option ElfHeader64 :=
  if buf.length < 64 then none
  else if buf.take 4 ≠ ELFMAG then none
  else if buf[4]? ≠ some 2 then none
  else
    match parseEndianByte buf[5]? with
    | none => none
    | some e =>
      some ⟨e, (readUInt buf e 40 8).getD 0, (readUInt buf e 58 2).getD 0,
        (readUInt buf e 60 2).getD 0⟩

/-- Section type of the dynamic linking information (ELF ABI). -/
def SHT_DYNAMIC : Nat := 6

/-- Modelled from the spec: §4.3 Section/Dynamic Locator — the `i`-th section
header's type, file offset and size (ELF64 layout: `sh_type` at +4,
`sh_offset` at +24, `sh_size` at +32), failing on a truncated table. -/
def sectionHeader (buf : List Nat) (e : Endianness) (h : ElfHeader64) (i : Nat) :
    Option (Nat × Nat × Nat) := do
  let base := h.e_shoff + i * h.e_shentsize
  let ty ← readUInt buf e (base + 4) 4
  let off ← readUInt buf e (base + 24) 8
  let sz ← readUInt buf e (base + 32) 8
  some (ty, off, sz)

/-- Modelled from the spec: §4.3 — walk the section indices looking for the
first section of type `SHT_DYNAMIC`; an unreadable section header is a read
error, exhausting the table without a match is `NoDynamic`. -/
def findDynAux (buf : List Nat) (e : Endianness) (h : ElfHeader64) :
    List Nat → Except HandleError (Nat × Nat)
  | [] => .error .NoDynamic
  | i :: is =>
    match sectionHeader buf e h i with
    | none => .error .ObjectReadError
    | some (ty, off, sz) =>
      if ty = SHT_DYNAMIC then .ok (off, sz) else findDynAux buf e h is

/-- Modelled from the spec: §4.3 — locate the dynamic section among the
`e_shnum` sections declared by the header. -/
def findDynamicSection (buf : List Nat) (h : ElfHeader64) :
    Except HandleError (Nat × Nat) :=
  findDynAux buf h.endian h (List.range h.e_shnum)

/-- A `u64` value reinterpreted as the signed 64-bit integer with the same
bit pattern (the `d_tag` field is signed). -/
def toI64 (v : Nat) : Int :=
  if v < 2 ^ 63 then (v : Int) else (v : Int) - 2 ^ 64

/-- Modelled from the spec: §4.4 — decode the dynamic section's bytes as
fixed-size 16-byte `(d_tag, d_val)` pairs under the object's byte order. -/
def decodeDyn64 (e : Endianness) (bytes : List Nat) : List DynEntry :=
  (List.range (bytes.length / 16)).map (fun j =>
    ⟨toI64 ((readUInt bytes e (16 * j) 8).getD 0),
      (readUInt bytes e (16 * j + 8) 8).getD 0⟩)

/-- The post-header part of the pipeline (src lines 30-38 plus the loops of
`extract_libs`): locate the dynamic section, slice it out of the buffer
(bounds-checked), decode its entries and extract the library names. -/
def extractFrom (bin_data : List Nat) (h : ElfHeader64) :
    Except HandleError (List (List Nat)) :=
  match findDynamicSection bin_data h with
  | .error e => .error e
  | .ok (off, sz) =>
    if off + sz ≤ bin_data.length then
      .ok (extract_libs bin_data (decodeDyn64 h.endian ((bin_data.drop off).take sz)))
    else .error .ObjectReadError

/-- `get_needed_libs` (src lines 86-118) on an already-read buffer: classify
the buffer, then — in the Elf32 branch exactly as in the Elf64 branch — parse
the header with the 64-bit `FileHeader64` layout (src lines 104 and 111) and
extract the needed libraries; other kinds are `NotElf`. -/
def get_needed_libs (bin_data : List Nat) : Except HandleError (List (List Nat)) :=
  match classify bin_data with
  | .elf32 =>
    match fileHeader64Parse bin_data with
    | none => .error .ObjectReadError
    | some h => extractFrom bin_data h
  | .elf64 =>
    match fileHeader64Parse bin_data with
    | none => .error .ObjectReadError
    | some h => extractFrom bin_data h
  | .other => .error .NotElf

/-- `lib_map.entry(lib).or_default().push(exe)` (src lines 137-141): the
dependency map modelled as an insertion-ordered association list; a present
key gets the file name appended to its list, an absent key is inserted at the
end with a singleton list. -/
def addDep : List (String × List String) → String → String → List (String × List String)
  | [], lib, exe => [(lib, [exe])]
  | (l, es) :: rest, lib, exe =>
    if l = lib then (l, es ++ [exe]) :: rest else (l, es) :: addDep rest lib exe

/-- Fold one per-file dependency record into the map (the inner for-loop of
src lines 137-141). -/
def foldRecord (m : List (String × List String)) (r : String × List String) :
    List (String × List String) :=
  r.2.foldl (fun m lib => addDep m lib r.1) m

/-- Fold all records into the dependency map (src lines 125-147, successful
files only). -/
def aggregate (records : List (String × List String)) : List (String × List String) :=
  records.foldl foldRecord []

/-- One step of a stable insertion sort ascending by dependent count:
`x` goes after every entry whose count is `≤` its own. -/
def insertByCount (x : String × List String) :
    List (String × List String) → List (String × List String)
  | [] => [x]
  | y :: ys => if y.2.length ≤ x.2.length then y :: insertByCount x ys else x :: y :: ys

/-- `lib_list.sort_by_key(|p| p.1.len())` (src lines 148-149): stable sort of
the entries, ascending by the length of the dependent list. -/
def sortByCount (l : List (String × List String)) : List (String × List String) :=
  l.foldr insertByCount []

/-- The finalized report order (src lines 148-156): aggregate the records,
then sort ascending by dependent count. -/
def finalize (records : List (String × List String)) : List (String × List String) :=
  sortByCount (aggregate records)

/-- The driver's fold over the directory entries (src lines 124-147): each
entry comes with its per-file outcome; `Err` outcomes are only logged and
skipped, `Ok` outcomes are folded into the map. -/
def foldOutcomes (files : List (String × Except HandleError (List String))) :
    List (String × List String) :=
  files.foldl
    (fun m f =>
      match f.2 with
      | .ok libs => libs.foldl (fun m lib => addDep m lib f.1) m
      | .error _ => m) []

/-- The whole run (src lines 120-156): a failure to list the directory itself
(src line 123, `.expect`) is fatal; otherwise every per-file outcome is folded
and the report is produced. -/
def runScan (dir : Except Unit (List (String × Except HandleError (List String)))) :
    Except Unit (List (String × List String)) :=
  match dir with
  | .error e => .error e
  | .ok files => .ok (sortByCount (foldOutcomes files))

/-- A minimal well-formed 52-byte ELF32 little-endian header (e_ehsize 52,
no program or section headers): a valid 32-bit object file. -/
def elf32Demo : List Nat :=
  [0x7f, 0x45, 0x4c, 0x46, 1, 1, 1, 0, 0, 0, 0, 0, 0, 0, 0, 0,
   2, 0, 3, 0, 1, 0, 0, 0, 0, 0, 0, 0, 0, 0, 0, 0, 0, 0, 0, 0,
   0, 0, 0, 0, 52, 0, 0, 0, 0, 0, 40, 0, 0, 0, 0, 0]

/-- The example aggregation input of the specification (§8). -/
def demoRecords : List (String × List String) :=
  [("a.bin", ["libx.so"]), ("b.bin", ["libx.so", "liby.so"])]

/-- A buffer holding the string table `"libfoo.so\0libbar.so\0"` at offset 0
(the round-trip example of spec §8). -/
def demoBuf : List Nat :=
  [108, 105, 98, 102, 111, 111, 46, 115, 111, 0,
   108, 105, 98, 98, 97, 114, 46, 115, 111, 0]

/-- Dynamic entries declaring the string table over all of `demoBuf` and two
DT_NEEDED entries at offsets 0 and 10. -/
def demoEntries : List DynEntry :=
  [⟨5, 0⟩, ⟨10, 20⟩, ⟨1, 0⟩, ⟨1, 10⟩]

/-- A 64-byte buffer with ELF magic, class ELFCLASS64, but byte-order byte 3,
which is neither ELFDATA2LSB (1) nor ELFDATA2MSB (2). -/
def elfBadData : List Nat :=
  [0x7f, 0x45, 0x4c, 0x46, 2, 3, 1, 0, 0, 0, 0, 0, 0, 0, 0, 0] ++
    List.replicate 48 0

theorem scanDynAux_spec :
    ∀ (es : List DynEntry) (offs : List Nat) (st sz : Nat),
      scanDynAux offs st sz es =
        (offs ++ neededVals es, lastValD DT_STRTAB st es, lastValD DT_STRSZ sz es)
  | [], offs, st, sz => by simp [scanDynAux, neededVals, lastValD]
  | e :: es, offs, st, sz => by
    cases htag : tag32 e with
    | none =>
      simp [scanDynAux, htag, neededVals, lastValD, scanDynAux_spec es]
    | some t =>
      by_cases h1 : t = DT_NEEDED
      · subst h1
        simp [scanDynAux, htag, neededVals, lastValD, scanDynAux_spec es,
          DT_NEEDED, DT_STRTAB, DT_STRSZ]
      · by_cases h5 : t = DT_STRTAB
        · subst h5
          simp [scanDynAux, htag, neededVals, lastValD, scanDynAux_spec es,
            DT_NEEDED, DT_STRTAB, DT_STRSZ]
        · by_cases h10 : t = DT_STRSZ
          · subst h10
            simp [scanDynAux, htag, neededVals, lastValD, scanDynAux_spec es,
              DT_NEEDED, DT_STRTAB, DT_STRSZ]
          · simp [scanDynAux, htag, neededVals, lastValD, scanDynAux_spec es,
              h1, h5, h10]

theorem scanDyn_spec (es : List DynEntry) :
    scanDyn es = (neededVals es, lastValD DT_STRTAB 0 es, lastValD DT_STRSZ 0 es) := by
  simpa [scanDyn] using scanDynAux_spec es [] 0 0

theorem neededVals_append (a b : List DynEntry) :
    neededVals (a ++ b) = neededVals a ++ neededVals b := by
  induction a with
  | nil => simp [neededVals]
  | cons e es ih =>
    by_cases h : tag32 e = some DT_NEEDED <;> simp [neededVals, h, ih]

theorem lastValD_append (t : Nat) (d : Nat) (a b : List DynEntry) :
    lastValD t d (a ++ b) = lastValD t (lastValD t d a) b := by
  induction a generalizing d with
  | nil => simp [lastValD]
  | cons e es ih =>
    by_cases h : tag32 e = some t <;> simp [lastValD, h, ih]

theorem lastValD_of_no_tag (t : Nat) (d : Nat) (es : List DynEntry)
    (h : ∀ e ∈ es, tag32 e ≠ some t) : lastValD t d es = d := by
  induction es with
  | nil => rfl
  | cons e es ih =>
    have he : tag32 e ≠ some t := h e (by simp)
    simp only [lastValD, if_neg he]
    exact ih (fun x hx => h x (by simp [hx]))

theorem foldl_resolve (buf : List Nat) (st stop : Nat) :
    ∀ (l : List Nat) (acc : List (List Nat)),
      (l.foldl
        (fun libs n =>
          if n < 2 ^ 32 then
            match stringTableGet buf st stop n with
            | some name => libs ++ [name]
            | none => libs
          else libs) acc)
      = acc ++ l.filterMap (resolveNeeded buf st stop)
  | [], acc => by simp
  | n :: l, acc => by
    simp only [List.foldl_cons, List.filterMap_cons, resolveNeeded]
    by_cases h : n < 2 ^ 32
    · rw [if_pos h, if_pos h]
      cases hg : stringTableGet buf st stop n with
      | some name =>
        rw [foldl_resolve buf st stop l]
        simp
      | none =>
        rw [foldl_resolve buf st stop l]
    · rw [if_neg h, if_neg h]
      exact foldl_resolve buf st stop l acc

theorem extract_libs_eq_filterMap (buf : List Nat) (entries : List DynEntry) :
    extract_libs buf entries =
      (scanDyn entries).1.filterMap
        (resolveNeeded buf (strTabBounds entries).1 (strTabBounds entries).2) := by
  simpa [extract_libs, strTabBounds] using
    foldl_resolve buf (scanDyn entries).2.1
      (((scanDyn entries).2.1 + (scanDyn entries).2.2) % 2 ^ 64) (scanDyn entries).1 []

theorem stringTableGet_none_of_stop_le (buf : List Nat) (start stop off : Nat)
    (h : stop ≤ start + off) : stringTableGet buf start stop off = none := by
  unfold stringTableGet
  by_cases hc : start + off ≤ stop ∧ stop ≤ buf.length
  · have hpos : stop - (start + off) = 0 := Nat.sub_eq_zero_of_le h
    simp [hc, hpos]
  · simp [hc]

theorem resolve_filterMap_eq_map (buf : List Nat) (st stop : Nat) :
    ∀ l : List Nat,
      (∀ o ∈ l, o < 2 ^ 32 ∧ (stringTableGet buf st stop o).isSome) →
      l.filterMap (resolveNeeded buf st stop)
        = l.map (fun o => (stringTableGet buf st stop o).getD [])
  | [], _ => by simp
  | n :: l, h => by
    obtain ⟨hn, hs⟩ := h n (by simp)
    obtain ⟨name, hname⟩ := Option.isSome_iff_exists.mp hs
    have ih := resolve_filterMap_eq_map buf st stop l (fun o ho => h o (by simp [ho]))
    simp only [List.filterMap_cons, List.map_cons, resolveNeeded]
    rw [if_pos hn, hname, ih]
    rfl

theorem parseEndianByte_spec (b : Option Nat) (e : Endianness)
    (h : parseEndianByte b = some e) :
    (b = some 1 ∧ e = .little) ∨ (b = some 2 ∧ e = .big) := by
  unfold parseEndianByte at h
  split at h
  · exact Or.inl ⟨rfl, by injection h with h; exact h.symm⟩
  · exact Or.inr ⟨rfl, by injection h with h; exact h.symm⟩
  · exact absurd h (by simp)

theorem parseEndianByte_none (b : Option Nat) (h1 : b ≠ some 1) (h2 : b ≠ some 2) :
    parseEndianByte b = none := by
  unfold parseEndianByte
  split
  · exact absurd rfl h1
  · exact absurd rfl h2
  · rfl

/-- C1 (code bug): the specification requires buffers classified as ELF32 to be
decoded with the 32-bit ELF header layout so that 32-bit objects parse
correctly, but the Elf32 branch of `get_needed_libs` (src line 104) parses
with the 64-bit `FileHeader64` layout exactly as the Elf64 branch does.  A
valid minimal 52-byte ELF32 object classifies as elf32 yet fails with
`ObjectReadError` (the 64-bit layout needs a 64-byte header), and even padded
to 64 bytes it still fails (the 64-bit layout rejects class ELFCLASS32), so
32-bit objects are never parsed. -/
theorem elf32_decoded_with_64bit_layout :
    classify elf32Demo = FileKind.elf32
    ∧ get_needed_libs elf32Demo = Except.error HandleError.ObjectReadError
    ∧ classify (elf32Demo ++ List.replicate 12 0) = FileKind.elf32
    ∧ get_needed_libs (elf32Demo ++ List.replicate 12 0)
        = Except.error HandleError.ObjectReadError := by
  decide

/-- C2: when every DT_NEEDED entry of the dynamic section carries an offset
that fits `u32` and resolves in the string table, extraction returns exactly
the resolved name of every such entry — one name per DT_NEEDED entry, in
entry order, duplicates preserved (the needed-offset list is the `d_val` of
each DT_NEEDED entry in encounter order). -/
theorem needed_entries_all_resolved (buf : List Nat) (es : List DynEntry)
    (hv : ∀ o ∈ (scanDyn es).1,
      o < 2 ^ 32 ∧
        (stringTableGet buf (strTabBounds es).1 (strTabBounds es).2 o).isSome) :
    extract_libs buf es
      = (scanDyn es).1.map
          (fun o => (stringTableGet buf (strTabBounds es).1 (strTabBounds es).2 o).getD [])
    ∧ (scanDyn es).1 = neededVals es := by
  constructor
  · rw [extract_libs_eq_filterMap]
    exact resolve_filterMap_eq_map buf (strTabBounds es).1 (strTabBounds es).2
      (scanDyn es).1 hv
  · rw [scanDyn_spec]

/-- Witness for C2: the spec §8 round-trip — a table `"libfoo.so\0libbar.so\0"`
with NEEDED offsets 0 and 10 yields exactly those two names in order. -/
theorem needed_entries_all_resolved_witness :
    extract_libs demoBuf demoEntries
      = [[108, 105, 98, 102, 111, 111, 46, 115, 111],
         [108, 105, 98, 98, 97, 114, 46, 115, 111]] :=
  ((needed_entries_all_resolved demoBuf demoEntries (by decide)).1).trans (by decide)

/-- C3 counterexample: the claim says entries positioned after a DT_NULL
terminator contribute nothing to the needed-offset list, but a DT_NEEDED
entry placed after a DT_NULL entry is still collected: the scan loop has no
terminator check. -/
theorem entries_after_null_contribute :
    (scanDyn [⟨0, 0⟩, ⟨1, 7⟩]).1 = [7]
    ∧ (scanDyn [⟨0, 0⟩, ⟨1, 7⟩]).1 ≠ [] := by
  decide

/-- C3 amended: decoding stops only at the end of the section (the entry list
is traversed in full and never past it); DT_NULL is not a terminator — it
falls into the wildcard arm and is skipped, and removing a DT_NULL entry
anywhere leaves the scan result unchanged, i.e. entries after it contribute
exactly as if it were absent. -/
theorem decoding_ignores_null_terminator (es₁ es₂ : List DynEntry) (v : Nat) :
    scanDyn (es₁ ++ ⟨(DT_NULL : Int), v⟩ :: es₂) = scanDyn (es₁ ++ es₂) := by
  have htag : tag32 ⟨(DT_NULL : Int), v⟩ = some 0 := by
    simp [tag32, DT_NULL]
  simp [scanDyn_spec, neededVals_append, lastValD_append, neededVals, lastValD,
    htag, DT_NEEDED, DT_STRTAB, DT_STRSZ]

/-- C4 counterexample: the claim says an absent DT_STRTAB (or DT_STRSZ) entry
makes the string table empty so no lookup yields a name; but with DT_STRTAB
absent and DT_STRSZ = 4 the table defaults to the first 4 bytes of the
buffer, and the lookup at offset 0 yields the name `"lib"`. -/
theorem absent_strtab_still_yields_name :
    extract_libs [108, 105, 98, 0] [⟨10, 4⟩, ⟨1, 0⟩] = [[108, 105, 98]]
    ∧ extract_libs [108, 105, 98, 0] [⟨10, 4⟩, ⟨1, 0⟩] ≠ [] := by
  decide

/-- C4 amended: only an absent DT_STRSZ makes the table degenerate — its size
stays 0, every lookup fails gracefully and extraction yields no names (an
absent DT_STRTAB merely defaults the table start to buffer offset 0, and
lookups can then succeed, see the counterexample). -/
theorem absent_strsz_no_names (buf : List Nat) (es : List DynEntry)
    (h : ∀ e ∈ es, tag32 e ≠ some DT_STRSZ) :
    extract_libs buf es = [] := by
  rw [extract_libs_eq_filterMap]
  have hsz : (scanDyn es).2.2 = 0 := by
    rw [scanDyn_spec]
    exact lastValD_of_no_tag _ _ _ h
  have hstop : (strTabBounds es).2 ≤ (strTabBounds es).1 := by
    simp only [strTabBounds, hsz, Nat.add_zero]
    exact Nat.mod_le _ _
  refine List.filterMap_eq_nil_iff.mpr (fun o _ => ?_)
  unfold resolveNeeded
  by_cases hlt : o < 2 ^ 32
  · rw [if_pos hlt]
    exact stringTableGet_none_of_stop_le _ _ _ _
      (le_trans hstop (Nat.le_add_right _ _))
  · rw [if_neg hlt]

/-- Witness for C4 amended: a dynamic section with a DT_STRTAB entry but no
DT_STRSZ entry extracts nothing. -/
theorem absent_strsz_no_names_witness :
    extract_libs [0, 0] [⟨5, 0⟩, ⟨1, 0⟩] = [] :=
  absent_strsz_no_names [0, 0] [⟨5, 0⟩, ⟨1, 0⟩] (by decide)

/-- C5 counterexample: the claim says every constructed string-table view
satisfies start ≤ end ≤ buffer length; but with DT_STRTAB = 2 and
DT_STRSZ = 100 over a 4-byte buffer the constructed view is (2, 102), whose
end exceeds the buffer length — construction performs no bounds check. -/
theorem view_end_exceeds_buffer :
    (strTabBounds [⟨5, 2⟩, ⟨10, 100⟩]).1 = 2
    ∧ (strTabBounds [⟨5, 2⟩, ⟨10, 100⟩]).2 = 102
    ∧ ¬ (strTabBounds [⟨5, 2⟩, ⟨10, 100⟩]).2 ≤ ([0, 0, 0, 0] : List Nat).length := by
  decide

/-- C5 amended: the view's bounds are not validated at construction (its end,
DT_STRTAB + DT_STRSZ under wrapping u64 addition, may exceed the buffer);
instead every lookup is bounds-checked at access time: a lookup whose
position reaches the view's end or beyond, or whose view end lies past the
buffer, fails rather than reading adjacent memory. -/
theorem lookup_outside_bounds_fails (buf : List Nat) (start stop off : Nat)
    (h : stop ≤ start + off ∨ buf.length < stop) :
    stringTableGet buf start stop off = none := by
  rcases h with h | h
  · exact stringTableGet_none_of_stop_le buf start stop off h
  · have hc : ¬ (start + off ≤ stop ∧ stop ≤ buf.length) := by
      intro hc
      exact absurd hc.2 (Nat.not_le_of_lt h)
    simp [stringTableGet, hc]

/-- Witness for C5 amended: a lookup against a view whose end (5) exceeds the
buffer length (2) fails. -/
theorem lookup_outside_bounds_fails_witness :
    stringTableGet [0, 0] 0 5 0 = none :=
  lookup_outside_bounds_fails [0, 0] 0 5 0 (Or.inr (by decide))

/-- C6: for a buffer classified as ELF, header decoding validates the
byte-order byte: a successful parse implies the byte is one of the two
recognized values and the extracted endianness matches it; an unrecognized
byte makes the parse fail, and a failed parse surfaces as the
`ObjectReadError` decode error of `get_needed_libs` (no panic: all functions
are total). -/
theorem byte_order_validated (buf : List Nat)
    (hck : classify buf = FileKind.elf32 ∨ classify buf = FileKind.elf64) :
    (∀ h, fileHeader64Parse buf = some h →
      (buf[5]? = some 1 ∧ h.endian = Endianness.little)
      ∨ (buf[5]? = some 2 ∧ h.endian = Endianness.big))
    ∧ (buf[5]? ≠ some 1 → buf[5]? ≠ some 2 → fileHeader64Parse buf = none)
    ∧ (fileHeader64Parse buf = none →
        get_needed_libs buf = Except.error HandleError.ObjectReadError) := by
  refine ⟨?_, ?_, ?_⟩
  · intro h hp
    unfold fileHeader64Parse at hp
    split at hp
    · exact absurd hp (by simp)
    split at hp
    · exact absurd hp (by simp)
    split at hp
    · exact absurd hp (by simp)
    split at hp
    · exact absurd hp (by simp)
    · rename_i e heq
      injection hp with hp
      rcases parseEndianByte_spec buf[5]? e heq with ⟨hb, he⟩ | ⟨hb, he⟩
      · exact Or.inl ⟨hb, by rw [← hp, he]⟩
      · exact Or.inr ⟨hb, by rw [← hp, he]⟩
  · intro h1 h2
    unfold fileHeader64Parse
    rw [parseEndianByte_none buf[5]? h1 h2]
    split
    · rfl
    split
    · rfl
    split
    · rfl
    rfl
  · intro hnone
    rcases hck with hck | hck <;> simp [get_needed_libs, hck, hnone]

/-- Witness for C6: a 64-byte ELF64-classified buffer whose byte-order byte is
3 fails header decoding, and the file fails with the decode error. -/
theorem byte_order_validated_witness :
    fileHeader64Parse elfBadData = none
    ∧ get_needed_libs elfBadData = Except.error HandleError.ObjectReadError := by
  have h := byte_order_validated elfBadData (Or.inr (by decide))
  have hn : fileHeader64Parse elfBadData = none := h.2.1 (by decide) (by decide)
  exact ⟨hn, h.2.2 hn⟩

/-- C7: a DT_NEEDED entry whose value does not fit the 32-bit offset width or
whose string-table lookup fails is skipped as a per-entry outcome: deleting
it from the section leaves the extracted list unchanged, so every other
NEEDED entry still resolves, and extraction still returns a result list
rather than failing the file. -/
theorem bad_needed_entry_skipped (buf : List Nat) (es₁ es₂ : List DynEntry)
    (e : DynEntry) (ht : tag32 e = some DT_NEEDED)
    (hbad : ¬ (e.d_val < 2 ^ 32 ∧
      (stringTableGet buf (strTabBounds (es₁ ++ es₂)).1 (strTabBounds (es₁ ++ es₂)).2
        e.d_val).isSome)) :
    extract_libs buf (es₁ ++ e :: es₂) = extract_libs buf (es₁ ++ es₂) := by
  have h5 : tag32 e ≠ some DT_STRTAB := by rw [ht]; decide
  have h10 : tag32 e ≠ some DT_STRSZ := by rw [ht]; decide
  have hb : strTabBounds (es₁ ++ e :: es₂) = strTabBounds (es₁ ++ es₂) := by
    simp [strTabBounds, scanDyn_spec, lastValD_append, lastValD, h5, h10]
  have hr : resolveNeeded buf (strTabBounds (es₁ ++ es₂)).1
      (strTabBounds (es₁ ++ es₂)).2 e.d_val = none := by
    unfold resolveNeeded
    by_cases hlt : e.d_val < 2 ^ 32
    · rw [if_pos hlt]
      exact Option.not_isSome_iff_eq_none.mp (fun hs => hbad ⟨hlt, hs⟩)
    · rw [if_neg hlt]
  rw [extract_libs_eq_filterMap, extract_libs_eq_filterMap, hb]
  simp [scanDyn_spec, neededVals_append, neededVals, ht, List.filterMap_append,
    List.filterMap_cons, hr]

/-- Witness for C7: a DT_NEEDED entry whose value 2^32 does not fit `u32` is
skipped while the valid entry of the same section still resolves. -/
theorem bad_needed_entry_skipped_witness :
    extract_libs [108, 0] [⟨5, 0⟩, ⟨10, 2⟩, ⟨1, 0⟩, ⟨1, 4294967296⟩]
      = extract_libs [108, 0] [⟨5, 0⟩, ⟨10, 2⟩, ⟨1, 0⟩] :=
  bad_needed_entry_skipped [108, 0] [⟨5, 0⟩, ⟨10, 2⟩, ⟨1, 0⟩] []
    ⟨1, 4294967296⟩ (by decide) (by decide)

/-- C8 counterexample: the claim orders `libx.so` (2 dependents) before
`liby.so` (1 dependent) in an ascending-by-count report; the code's ascending
sort puts `liby.so` first. -/
theorem report_orders_liby_before_libx :
    (finalize demoRecords).map Prod.fst = ["liby.so", "libx.so"]
    ∧ (finalize demoRecords).map Prod.fst ≠ ["libx.so", "liby.so"] := by
  decide

/-- C8 amended: folding `{"a.bin": ["libx.so"], "b.bin": ["libx.so","liby.so"]}`
finalizes to `liby.so` with dependent list `["b.bin"]` (1 dependent) sorted
before `libx.so` with dependent list `["a.bin", "b.bin"]` (2 dependents, in
insertion order). -/
theorem report_example_finalized :
    finalize demoRecords
      = [("liby.so", ["b.bin"]), ("libx.so", ["a.bin", "b.bin"])] := by
  decide

/-- C9: a per-file failure is contained in that file's processing: the run's
result over a directory listing containing a failed file equals the result
without that file, the run still succeeds, and only a failure of the
directory listing itself makes the whole run fail. -/
theorem per_file_failure_contained
    (fs₁ fs₂ : List (String × Except HandleError (List String)))
    (name : String) (e : HandleError) :
    runScan (Except.ok (fs₁ ++ (name, Except.error e) :: fs₂))
      = runScan (Except.ok (fs₁ ++ fs₂))
    ∧ (∃ r, runScan (Except.ok (fs₁ ++ (name, Except.error e) :: fs₂)) = Except.ok r)
    ∧ (∀ u : Unit, runScan (Except.error u) = Except.error u) := by
  refine ⟨?_, ⟨_, rfl⟩, fun u => rfl⟩
  simp [runScan, foldOutcomes, List.foldl_append]

/-- C10: with several DT_STRTAB (and DT_STRSZ) entries in the section, the
string-table bounds come from the last occurrence of each tag, silently
overriding every earlier occurrence (here arbitrary earlier entries `es₁`,
including earlier DT_STRTAB/DT_STRSZ occurrences, are overridden). -/
theorem last_strtab_strsz_wins (es₁ es₂ : List DynEntry) (v w : Nat)
    (h5 : ∀ e ∈ es₂, tag32 e ≠ some DT_STRTAB)
    (h10 : ∀ e ∈ es₂, tag32 e ≠ some DT_STRSZ) :
    (scanDyn (es₁ ++ ⟨(DT_STRTAB : Int), v⟩ :: ⟨(DT_STRSZ : Int), w⟩ :: es₂)).2.1 = v
    ∧ (scanDyn (es₁ ++ ⟨(DT_STRTAB : Int), v⟩ :: ⟨(DT_STRSZ : Int), w⟩ :: es₂)).2.2 = w := by
  have ht5 : tag32 ⟨(DT_STRTAB : Int), v⟩ = some DT_STRTAB := by
    simp [tag32, DT_STRTAB]
  have ht10 : tag32 ⟨(DT_STRSZ : Int), w⟩ = some DT_STRSZ := by
    simp [tag32, DT_STRSZ]
  have hne1 : (some DT_STRSZ : Option Nat) ≠ some DT_STRTAB := by decide
  have hne2 : (some DT_STRTAB : Option Nat) ≠ some DT_STRSZ := by decide
  constructor
  · rw [scanDyn_spec]
    show lastValD DT_STRTAB 0 _ = v
    rw [lastValD_append]
    simp only [lastValD, ht5, ht10, if_pos rfl, if_neg hne1]
    exact lastValD_of_no_tag _ _ _ h5
  · rw [scanDyn_spec]
    show lastValD DT_STRSZ 0 _ = w
    rw [lastValD_append]
    simp only [lastValD, ht5, ht10, if_pos rfl, if_neg hne2]
    exact lastValD_of_no_tag _ _ _ h10

/-- Witness for C10: bounds (11, 3) from earlier entries are overridden by the
later occurrences (22, 7). -/
theorem last_strtab_strsz_wins_witness :
    (scanDyn ([⟨5, 11⟩, ⟨10, 3⟩] ++ ⟨(DT_STRTAB : Int), 22⟩ :: ⟨(DT_STRSZ : Int), 7⟩
      :: [⟨1, 0⟩])).2.1 = 22
    ∧ (scanDyn ([⟨5, 11⟩, ⟨10, 3⟩] ++ ⟨(DT_STRTAB : Int), 22⟩ :: ⟨(DT_STRSZ : Int), 7⟩
      :: [⟨1, 0⟩])).2.2 = 7 :=
  last_strtab_strsz_wins [⟨5, 11⟩, ⟨10, 3⟩] [⟨1, 0⟩] 22 7 (by decide) (by decide)

end HsElf
